import Mathlib

/-!
Verification of the Crysknife private-accessor mechanism
(`SourcePatch/Runtime/Core/Public/Misc/PrivateAccessor.h`).

The header declares, for each accessor, a tag struct carrying the exact
pointer type of the target member (`Tag::Type`), a zero-initialized static
slot `TResult<Tag>::Ptr` of that type, and a binder `TRob<Tag, Ptr>` whose
constructor assigns the member's handle into the slot during static
initialization (explicit instantiation bypasses access control, so the
handle can be formed even for private members).  The `PRIVATE_ACCESS*`
macros then read the slot and apply the stored handle with the ordinary
`.*`, `->*` and `*` operators.

Embedding choices:
* a pointer-to-member-variable `T (X::*)` is a getter/setter pair on `X`;
* a pointer-to-member-function `R (X::*)(A)` is `X → A → R × X`
  (the call may mutate the object); a `const`-qualified one is `X → A → R`
  (the call cannot mutate the object);
* a raw pointer `T*` to static storage is a getter/setter pair on a
  static-state record `S`; a plain function pointer `R (*)(A)` is
  `A → S → R × S` (a static function may mutate static state);
* the per-tag cells `TResult<Tag>::Ptr` are one store from tag ids to
  `Option` handles, `none` modelling the zero-initialized null pointer;
* static initialization of a translation unit runs the unit's binders in
  sequence, before any post-initialization program logic executes;
* heap pointers (`&Obj`) are indices into a list of objects.
-/

namespace Crysknife

/-- A pointer-to-member-variable `MemberType (Class::*)`: reading and
writing the designated field of an instance. -/
structure MemberVarPtr (X T : Type) where
  get : X → T
  set : X → T → X

/-- A pointer-to-member-function `ReturnType (Class::*)(Args...)` without
qualifier: invoking it on an instance yields the return value and the
possibly mutated instance. -/
abbrev MemberFunPtr (X A R : Type) : Type := X → A → R × X

/-- A pointer-to-member-function `ReturnType (Class::*)(Args...) const`:
invoking it on an instance yields only the return value, the instance
cannot be mutated. -/
abbrev ConstMemberFunPtr (X A R : Type) : Type := X → A → R

/-- A raw pointer `MemberType*` into the program's static storage `S`:
reading and writing the designated static variable. -/
structure StaticVarPtr (S T : Type) where
  get : S → T
  set : S → T → S

/-- A plain function pointer `ReturnType (*)(Args...)` for a static
function, which may read and mutate static storage. -/
abbrev StaticFunPtr (S A R : Type) : Type := A → S → R × S

/-- The family of slots `TResult<Tag>::Ptr`, one static cell per tag id;
`none` models the zero-initialized null member pointer the cell holds
before its binder has run. -/
abbrev TResultPtr (H : Type) : Type := Nat → Option H

/-- Zero-initialization of static storage: every `TResult<Tag>::Ptr`
starts as the null handle. -/
def TResultPtr.zeroInit {H : Type} : TResultPtr H := fun _ => none

/-- `TRob<Tag, Ptr>`: the binder, carrying its tag id and the non-type
template argument `Ptr`, the target member's handle formed at the
explicit-instantiation point. -/
structure TRob (H : Type) where
  tag : Nat
  ptr : H

/-- The constructor body `TRob() { TResult<Tag>::Ptr = Ptr; }`: the one
assignment publishing the handle into the slot. -/
def TRob.run {H : Type} (b : TRob H) (s : TResultPtr H) : TResultPtr H :=
  fun t => if t = b.tag then some b.ptr else s t

/-- Static initialization of a translation unit: constructing
`TRob<Tag, Ptr>::Obj` for every accessor declaration in the unit, in
sequence, starting from zero-initialized slots. -/
def runBinders {H : Type} (bs : List (TRob H)) (s : TResultPtr H) : TResultPtr H :=
  bs.foldl (fun acc b => b.run acc) s

/-- `PRIVATE_ACCESS(ClassTag, MemberName)`: read `TResult<Tag>::Ptr`. -/
def PRIVATE_ACCESS {H : Type} (s : TResultPtr H) (t : Nat) : Option H := s t

/-- `DEFINE_PRIVATE_ACCESSOR_VARIABLE_EX(ClassTag, Class, MemberType, MemberName)`:
declares the tag (a fresh id) and explicitly instantiates
`TRob<Tag, &Class::MemberName>`; the binder record to be run at static
initialization. -/
def DEFINE_PRIVATE_ACCESSOR_VARIABLE_EX {X T : Type} (tag : Nat)
    (member : MemberVarPtr X T) : TRob (MemberVarPtr X T) := ⟨tag, member⟩

/-- `DEFINE_PRIVATE_ACCESSOR_STATIC_VARIABLE_EX(ClassTag, Class, MemberType, MemberName)`. -/
def DEFINE_PRIVATE_ACCESSOR_STATIC_VARIABLE_EX {S T : Type} (tag : Nat)
    (member : StaticVarPtr S T) : TRob (StaticVarPtr S T) := ⟨tag, member⟩

/-- `DEFINE_PRIVATE_ACCESSOR_FUNCTION_EX(ClassTag, Class, ReturnType, MemberName, , Args...)`
(empty qualifier). -/
def DEFINE_PRIVATE_ACCESSOR_FUNCTION_EX {X A R : Type} (tag : Nat)
    (member : MemberFunPtr X A R) : TRob (MemberFunPtr X A R) := ⟨tag, member⟩

/-- `DEFINE_PRIVATE_ACCESSOR_FUNCTION_EX(ClassTag, Class, ReturnType, MemberName, const, Args...)`
(`const` qualifier). -/
def DEFINE_PRIVATE_ACCESSOR_CONST_FUNCTION_EX {X A R : Type} (tag : Nat)
    (member : ConstMemberFunPtr X A R) : TRob (ConstMemberFunPtr X A R) := ⟨tag, member⟩

/-- `DEFINE_PRIVATE_ACCESSOR_STATIC_FUNCTION_EX(ClassTag, Class, ReturnType, MemberName, Args...)`. -/
def DEFINE_PRIVATE_ACCESSOR_STATIC_FUNCTION_EX {S A R : Type} (tag : Nat)
    (member : StaticFunPtr S A R) : TRob (StaticFunPtr S A R) := ⟨tag, member⟩

/-- `PRIVATE_ACCESS_OBJ(ClassTag, MemberName, Obj)` used as an rvalue:
`Obj.*TResult<Tag>::Ptr` read. -/
def PRIVATE_ACCESS_OBJ_read {X T : Type} (s : TResultPtr (MemberVarPtr X T))
    (t : Nat) (x : X) : Option T :=
  (PRIVATE_ACCESS s t).map fun p => p.get x

/-- `PRIVATE_ACCESS_OBJ(ClassTag, MemberName, Obj) = v`:
assignment through `Obj.*TResult<Tag>::Ptr`, yielding the updated object. -/
def PRIVATE_ACCESS_OBJ_write {X T : Type} (s : TResultPtr (MemberVarPtr X T))
    (t : Nat) (x : X) (v : T) : Option X :=
  (PRIVATE_ACCESS s t).map fun p => p.set x v

/-- `PRIVATE_ACCESS_OBJ(ClassTag, MemberName, Obj)(args...)`:
invocation through `Obj.*TResult<Tag>::Ptr`, yielding the return value and
the updated object. -/
def PRIVATE_ACCESS_OBJ_invoke {X A R : Type} (s : TResultPtr (MemberFunPtr X A R))
    (t : Nat) (x : X) (a : A) : Option (R × X) :=
  (PRIVATE_ACCESS s t).map fun m => m x a

/-- `PRIVATE_ACCESS_OBJ(ClassTag, MemberName, Obj)(args...)` for a
`const`-qualified member function: the object is returned unchanged. -/
def PRIVATE_ACCESS_OBJ_invokeConst {X A R : Type}
    (s : TResultPtr (ConstMemberFunPtr X A R)) (t : Nat) (x : X) (a : A) :
    Option (R × X) :=
  (PRIVATE_ACCESS s t).map fun m => (m x a, x)

/-- The heap the use-case pointers point into: `&Obj` is an index. -/
abbrev Heap (X : Type) : Type := List X

/-- `PRIVATE_ACCESS_PTR(ClassTag, MemberName, Ptr)` used as an rvalue:
`Ptr->*TResult<Tag>::Ptr` read. -/
def PRIVATE_ACCESS_PTR_read {X T : Type} (s : TResultPtr (MemberVarPtr X T))
    (t : Nat) (h : Heap X) (i : Nat) : Option T :=
  (h[i]?).bind fun x => PRIVATE_ACCESS_OBJ_read s t x

/-- `PRIVATE_ACCESS_PTR(ClassTag, MemberName, Ptr) = v`: assignment
through `Ptr->*TResult<Tag>::Ptr`, yielding the updated heap. -/
def PRIVATE_ACCESS_PTR_write {X T : Type} (s : TResultPtr (MemberVarPtr X T))
    (t : Nat) (h : Heap X) (i : Nat) (v : T) : Option (Heap X) :=
  (h[i]?).bind fun x => (PRIVATE_ACCESS_OBJ_write s t x v).map fun x' => h.set i x'

/-- `PRIVATE_ACCESS_PTR(ClassTag, MemberName, Ptr)(args...)`: invocation
through `Ptr->*TResult<Tag>::Ptr`, yielding the return value and the
updated heap. -/
def PRIVATE_ACCESS_PTR_invoke {X A R : Type} (s : TResultPtr (MemberFunPtr X A R))
    (t : Nat) (h : Heap X) (i : Nat) (a : A) : Option (R × Heap X) :=
  (h[i]?).bind fun x => (PRIVATE_ACCESS_OBJ_invoke s t x a).map fun rx => (rx.1, h.set i rx.2)

/-- `PRIVATE_ACCESS_PTR(ClassTag, MemberName, Ptr)(args...)` for a
`const`-qualified member function. -/
def PRIVATE_ACCESS_PTR_invokeConst {X A R : Type}
    (s : TResultPtr (ConstMemberFunPtr X A R)) (t : Nat) (h : Heap X) (i : Nat)
    (a : A) : Option (R × Heap X) :=
  (h[i]?).bind fun x => (PRIVATE_ACCESS_OBJ_invokeConst s t x a).map fun rx => (rx.1, h.set i rx.2)

/-- `PRIVATE_ACCESS_STATIC(ClassTag, MemberName)` used as an rvalue:
`*TResult<Tag>::Ptr` read of the static variable. -/
def PRIVATE_ACCESS_STATIC_read {S T : Type} (s : TResultPtr (StaticVarPtr S T))
    (t : Nat) (σ : S) : Option T :=
  (PRIVATE_ACCESS s t).map fun p => p.get σ

/-- `PRIVATE_ACCESS_STATIC(ClassTag, MemberName) = v`: assignment through
`*TResult<Tag>::Ptr`, yielding the updated static state. -/
def PRIVATE_ACCESS_STATIC_write {S T : Type} (s : TResultPtr (StaticVarPtr S T))
    (t : Nat) (σ : S) (v : T) : Option S :=
  (PRIVATE_ACCESS s t).map fun p => p.set σ v

/-- `PRIVATE_ACCESS_STATIC(ClassTag, MemberName)(args...)`: invocation of
a static function through the slot. -/
def PRIVATE_ACCESS_STATIC_invoke {S A R : Type} (s : TResultPtr (StaticFunPtr S A R))
    (t : Nat) (a : A) (σ : S) : Option (R × S) :=
  (PRIVATE_ACCESS s t).map fun f => f a σ

/-! ## The use-case class from the header

```
class FTestClass
{
  static const FTestClass* Instance;
  int32_t Value = 42;
  void Increment() { Value++; }
  static bool Register(const FTestClass* Ptr) { Instance = Ptr; return true; }
  void Register(std::map<const FTestClass*, int32_t>& Dictionary) const { Dictionary[this] = Value; }
  ...
};
```
Pointers (`const FTestClass*`) are heap indices; the null pointer is
`none`.  `this` inside the `const` overload of `Register` is modelled by
passing the object's own heap index explicitly in the argument list. -/

structure FTestClass where
  Value : Int
deriving DecidableEq

/-- The static storage of the use case: `FTestClass::Instance`,
zero-initialized to the null pointer. -/
structure FStaticState where
  Instance : Option Nat
deriving DecidableEq

/-- `std::map<const FTestClass*, int32_t>`, as an association list keyed
by heap index. -/
abbrev FIndexMap : Type := List (Nat × Int)

/-- `Dictionary[Key] = V` on a `std::map`: update the key if present,
otherwise insert it. -/
def mapInsert : FIndexMap → Nat → Int → FIndexMap
  | [], k, v => [(k, v)]
  | (k', v') :: rest, k, v =>
      if k = k' then (k, v) :: rest else (k', v') :: mapInsert rest k v

/-- The handle `&FTestClass::Value`. -/
def FTestClass.ValueMember : MemberVarPtr FTestClass Int :=
  ⟨fun x => x.Value, fun x v => { x with Value := v }⟩

/-- The handle `&FTestClass::Increment` (`void Increment() { Value++; }`). -/
def FTestClass.IncrementMember : MemberFunPtr FTestClass Unit Unit :=
  fun x _ => ((), { x with Value := x.Value + 1 })

/-- The handle `&FTestClass::Instance` (a `const FTestClass**` into static
storage). -/
def FTestClass.InstanceStatic : StaticVarPtr FStaticState (Option Nat) :=
  ⟨fun σ => σ.Instance, fun σ p => { σ with Instance := p }⟩

/-- The handle `&FTestClass::Register` for the static overload
(`static bool Register(const FTestClass* Ptr) { Instance = Ptr; return true; }`). -/
def FTestClass.RegisterStatic : StaticFunPtr FStaticState (Option Nat) Bool :=
  fun p σ => (true, { σ with Instance := p })

/-- The handle `&FTestClass::Register` for the `const` member overload
(`void Register(FTestClassIndexMap&) const { Dictionary[this] = Value; }`);
the first argument component is `this` as a heap index, the second the
map passed by reference, which is returned updated. -/
def FTestClass.RegisterMap : ConstMemberFunPtr FTestClass (Nat × FIndexMap) FIndexMap :=
  fun x args => mapInsert args.2 args.1 x.Value

/-! Tag ids for the use-case accessor declarations.  Each
`DEFINE_PRIVATE_ACCESSOR_*` line declares a distinct tag struct, so the
ids are pairwise distinct. -/

def valueTag : Nat := 0
def instanceTag : Nat := 1
def incrementTag : Nat := 2
def registerStaticTag : Nat := 3
def registerMapTag : Nat := 4

/-- `DEFINE_PRIVATE_ACCESSOR_VARIABLE(FTestClass, int32_t, Value)`. -/
def ValueAccessor : TRob (MemberVarPtr FTestClass Int) :=
  DEFINE_PRIVATE_ACCESSOR_VARIABLE_EX valueTag FTestClass.ValueMember

/-- `DEFINE_PRIVATE_ACCESSOR_STATIC_VARIABLE(FTestClass, const FTestClass*, Instance)`. -/
def InstanceAccessor : TRob (StaticVarPtr FStaticState (Option Nat)) :=
  DEFINE_PRIVATE_ACCESSOR_STATIC_VARIABLE_EX instanceTag FTestClass.InstanceStatic

/-- `DEFINE_PRIVATE_ACCESSOR_FUNCTION(FTestClass, void, Increment)`. -/
def IncrementAccessor : TRob (MemberFunPtr FTestClass Unit Unit) :=
  DEFINE_PRIVATE_ACCESSOR_FUNCTION_EX incrementTag FTestClass.IncrementMember

/-- `DEFINE_PRIVATE_ACCESSOR_STATIC_FUNCTION(FTestClass, bool, Register, const FTestClass*)`. -/
def RegisterStaticAccessor : TRob (StaticFunPtr FStaticState (Option Nat) Bool) :=
  DEFINE_PRIVATE_ACCESSOR_STATIC_FUNCTION_EX registerStaticTag FTestClass.RegisterStatic

/-- `DEFINE_PRIVATE_ACCESSOR_CONST_FUNCTION_TAG(FTestClassToMap, FTestClass, void, Register, FTestClassIndexMap&)`. -/
def RegisterMapAccessor : TRob (ConstMemberFunPtr FTestClass (Nat × FIndexMap) FIndexMap) :=
  DEFINE_PRIVATE_ACCESSOR_CONST_FUNCTION_EX registerMapTag FTestClass.RegisterMap

/-- The use-case member-variable slots after static initialization. -/
def varStore : TResultPtr (MemberVarPtr FTestClass Int) :=
  runBinders [ValueAccessor] TResultPtr.zeroInit

/-- The use-case member-function slots after static initialization. -/
def funStore : TResultPtr (MemberFunPtr FTestClass Unit Unit) :=
  runBinders [IncrementAccessor] TResultPtr.zeroInit

/-- The use-case static-variable slots after static initialization. -/
def staticVarStore : TResultPtr (StaticVarPtr FStaticState (Option Nat)) :=
  runBinders [InstanceAccessor] TResultPtr.zeroInit

/-- The use-case static-function slots after static initialization. -/
def staticFunStore : TResultPtr (StaticFunPtr FStaticState (Option Nat) Bool) :=
  runBinders [RegisterStaticAccessor] TResultPtr.zeroInit

/-- The use-case const-member-function slots after static initialization. -/
def constFunStore : TResultPtr (ConstMemberFunPtr FTestClass (Nat × FIndexMap) FIndexMap) :=
  runBinders [RegisterMapAccessor] TResultPtr.zeroInit

/-! ## Helper lemmas on the slot machinery -/

theorem TRob.run_self {H : Type} (b : TRob H) (s : TResultPtr H) :
    b.run s b.tag = some b.ptr := if_pos rfl

theorem TRob.run_other {H : Type} (b : TRob H) (s : TResultPtr H) (t : Nat)
    (h : t ≠ b.tag) : b.run s t = s t := if_neg h

theorem runBinders_nil {H : Type} (s : TResultPtr H) : runBinders [] s = s := rfl

theorem runBinders_cons {H : Type} (b : TRob H) (bs : List (TRob H))
    (s : TResultPtr H) : runBinders (b :: bs) s = runBinders bs (b.run s) := rfl

/-- Binders for other tags leave a slot untouched. -/
theorem runBinders_eq_of_not_mem {H : Type} :
    ∀ (bs : List (TRob H)) (s : TResultPtr H) (t : Nat),
      (∀ b ∈ bs, b.tag ≠ t) → runBinders bs s t = s t
  | [], _, _, _ => rfl
  | a :: rest, s, t, h => by
      rw [runBinders_cons,
        runBinders_eq_of_not_mem rest (a.run s) t
          (fun b hb => h b (List.mem_cons_of_mem _ hb))]
      exact TRob.run_other a s t fun he => h a (List.mem_cons_self _ _) he.symm

/-- After all binders of a unit have run, a declared slot holds its
binder's handle (tags repeating with the same handle are harmless; the
header's macros in fact make all tags distinct). -/
theorem runBinders_bound {H : Type} :
    ∀ (bs : List (TRob H)) (b : TRob H), b ∈ bs →
      (∀ b' ∈ bs, b'.tag = b.tag → b'.ptr = b.ptr) →
      ∀ s : TResultPtr H, runBinders bs s b.tag = some b.ptr
  | [], b, hb, _, _ => absurd hb (List.not_mem_nil b)
  | a :: rest, b, hb, huniq, s => by
      by_cases hrest : ∃ b' ∈ rest, b'.tag = b.tag
      · obtain ⟨b', hb', htag⟩ := hrest
        have hptr : b'.ptr = b.ptr :=
          huniq b' (List.mem_cons_of_mem _ hb') htag
        have ih := runBinders_bound rest b' hb'
          (fun c hc hct => by
            rw [huniq c (List.mem_cons_of_mem _ hc) (hct.trans htag), hptr])
          (a.run s)
        rw [runBinders_cons, ← htag, ← hptr]
        exact ih
      · push_neg at hrest
        have hba : b = a := by
          rcases List.mem_cons.mp hb with h | h
          · exact h
          · exact absurd rfl (hrest b h)
        subst hba
        rw [runBinders_cons,
          runBinders_eq_of_not_mem rest (b.run s) b.tag hrest]
        exact TRob.run_self b s

/-- Replacing a list element by the value already there is a no-op. -/
theorem list_set_getElem_self {X : Type} :
    ∀ (h : List X) (i : Nat) (x : X), h[i]? = some x → h.set i x = h
  | [], i, x, hx => by simp at hx
  | a :: t, 0, x, hx => by
      simp only [List.getElem?_cons_zero, Option.some.injEq] at hx
      simp [List.set, hx]
  | a :: t, i + 1, x, hx => by
      simp only [List.getElem?_cons_succ] at hx
      simp [List.set, list_set_getElem_self t i x hx]

/-! ## Claim theorems -/

/-- Claim C1: for every non-static field `f` on class `X` bound into a
slot, reading through the field accessor (`PRIVATE_ACCESS_OBJ` on the slot
declared by `DEFINE_PRIVATE_ACCESSOR_VARIABLE_EX`) yields exactly the
full-access read `x.f`, and after writing `v` through the accessor a
direct full-access read of the field yields `v`. -/
theorem field_accessor_roundtrip {X T : Type} (s : TResultPtr (MemberVarPtr X T))
    (t : Nat) (f : MemberVarPtr X T) (hbound : PRIVATE_ACCESS s t = some f)
    (hfield : ∀ x v, f.get (f.set x v) = v) (x : X) (v : T) :
    PRIVATE_ACCESS_OBJ_read s t x = some (f.get x) ∧
    ∃ x', PRIVATE_ACCESS_OBJ_write s t x v = some x' ∧ f.get x' = v := by
  refine ⟨?_, f.set x v, ?_, hfield x v⟩
  · simp [PRIVATE_ACCESS_OBJ_read, hbound]
  · simp [PRIVATE_ACCESS_OBJ_write, hbound]

/-- Concrete instance of C1, the spec's scenario: an `int` field holding
42 reads as 42 through the accessor; after assigning 43 through the
accessor the direct field read yields 43. -/
theorem field_accessor_roundtrip_witness :
    PRIVATE_ACCESS_OBJ_read varStore valueTag ⟨42⟩ = some 42 ∧
    ∃ x', PRIVATE_ACCESS_OBJ_write varStore valueTag ⟨42⟩ 43 = some x' ∧
      FTestClass.ValueMember.get x' = 43 :=
  field_accessor_roundtrip varStore valueTag FTestClass.ValueMember rfl
    (fun _ _ => rfl) ⟨42⟩ 43

/-- Claim C2: for every private method `m` bound into a slot, invoking
through the method accessor returns the same value and produces the same
updated object as the direct full-access invocation `x.m(a)`. -/
theorem method_accessor_equiv {X A R : Type} (s : TResultPtr (MemberFunPtr X A R))
    (t : Nat) (m : MemberFunPtr X A R) (hbound : PRIVATE_ACCESS s t = some m)
    (x : X) (a : A) :
    PRIVATE_ACCESS_OBJ_invoke s t x a = some (m x a) := by
  simp [PRIVATE_ACCESS_OBJ_invoke, hbound]

/-- Concrete instance of C2: invoking `Increment` through its accessor on
an instance holding 42 yields the direct invocation's result, the
instance holding 43. -/
theorem method_accessor_equiv_witness :
    PRIVATE_ACCESS_OBJ_invoke funStore incrementTag ⟨42⟩ () =
      some (FTestClass.IncrementMember ⟨42⟩ ()) ∧
    FTestClass.IncrementMember ⟨42⟩ () = ((), ⟨43⟩) :=
  ⟨method_accessor_equiv funStore incrementTag FTestClass.IncrementMember rfl
    ⟨42⟩ (), by decide⟩

/-- Claim C3: for every private static variable bound into a slot, the
value observed through `PRIVATE_ACCESS_STATIC` equals the internal
full-access read, and after a write through the accessor a subsequent
internal read observes the written value. -/
theorem static_accessor_coherent {S T : Type} (s : TResultPtr (StaticVarPtr S T))
    (t : Nat) (p : StaticVarPtr S T) (hbound : PRIVATE_ACCESS s t = some p)
    (hfield : ∀ σ v, p.get (p.set σ v) = v) (σ : S) (v : T) :
    PRIVATE_ACCESS_STATIC_read s t σ = some (p.get σ) ∧
    ∃ σ', PRIVATE_ACCESS_STATIC_write s t σ v = some σ' ∧ p.get σ' = v := by
  refine ⟨?_, p.set σ v, ?_, hfield σ v⟩
  · simp [PRIVATE_ACCESS_STATIC_read, hbound]
  · simp [PRIVATE_ACCESS_STATIC_write, hbound]

/-- Concrete instance of C3: `FTestClass::Instance` starts null; writing a
pointer through the static accessor is observed by the internal read. -/
theorem static_accessor_coherent_witness :
    PRIVATE_ACCESS_STATIC_read staticVarStore instanceTag ⟨none⟩ =
      some (FTestClass.InstanceStatic.get ⟨none⟩) ∧
    ∃ σ', PRIVATE_ACCESS_STATIC_write staticVarStore instanceTag ⟨none⟩ (some 7) =
      some σ' ∧ FTestClass.InstanceStatic.get σ' = some 7 :=
  static_accessor_coherent staticVarStore instanceTag FTestClass.InstanceStatic rfl
    (fun _ _ => rfl) ⟨none⟩ (some 7)

/-- Claim C4: the two overloads of `FTestClass::Register` reached through
their two accessors, declared with distinct disambiguation tags: each
accessor's slot is independently bound at declaration time to its own
overload's handle, invoking either accessor produces exactly that
overload's result for every input, and on concrete inputs the results are
the overload-specific ones (the static overload returns `true` and stores
the pointer; the `const` overload fills the dictionary and leaves the
object alone). -/
theorem overload_accessors_distinct :
    PRIVATE_ACCESS staticFunStore registerStaticTag = some FTestClass.RegisterStatic ∧
    PRIVATE_ACCESS constFunStore registerMapTag = some FTestClass.RegisterMap ∧
    (∀ p σ, PRIVATE_ACCESS_STATIC_invoke staticFunStore registerStaticTag p σ =
      some (FTestClass.RegisterStatic p σ)) ∧
    (∀ x args, PRIVATE_ACCESS_OBJ_invokeConst constFunStore registerMapTag x args =
      some (FTestClass.RegisterMap x args, x)) ∧
    FTestClass.RegisterStatic (some 7) ⟨none⟩ = (true, ⟨some 7⟩) ∧
    FTestClass.RegisterMap ⟨42⟩ (7, []) = [(7, 42)] :=
  ⟨rfl, rfl, fun _ _ => rfl, fun _ _ => rfl, by decide, by decide⟩

/-- Claim C8: invoking a `const`-qualified method accessor never mutates
the instance it is applied to, whether applied to an object or through a
pointer into the heap: the object component of the result is the original
object, and the heap is unchanged. -/
theorem const_accessor_preserves_qualifier {X A R : Type}
    (s : TResultPtr (ConstMemberFunPtr X A R)) (t : Nat)
    (m : ConstMemberFunPtr X A R) (hbound : PRIVATE_ACCESS s t = some m)
    (x : X) (a : A) :
    PRIVATE_ACCESS_OBJ_invokeConst s t x a = some (m x a, x) ∧
    ∀ (h : Heap X) (i : Nat), h[i]? = some x →
      PRIVATE_ACCESS_PTR_invokeConst s t h i a = some (m x a, h) := by
  constructor
  · simp [PRIVATE_ACCESS_OBJ_invokeConst, hbound]
  · intro h i hx
    simp [PRIVATE_ACCESS_PTR_invokeConst, PRIVATE_ACCESS_OBJ_invokeConst, hx,
      hbound, list_set_getElem_self h i x hx]

/-- Concrete instance of C8: invoking the `const` overload of `Register`
through its accessor fills the dictionary but leaves the instance and the
heap exactly as they were. -/
theorem const_accessor_preserves_qualifier_witness :
    PRIVATE_ACCESS_OBJ_invokeConst constFunStore registerMapTag ⟨42⟩ (0, []) =
      some (FTestClass.RegisterMap ⟨42⟩ (0, []), ⟨42⟩) ∧
    PRIVATE_ACCESS_PTR_invokeConst constFunStore registerMapTag [⟨42⟩] 0 (0, []) =
      some (FTestClass.RegisterMap ⟨42⟩ (0, []), [⟨42⟩]) :=
  ⟨(const_accessor_preserves_qualifier constFunStore registerMapTag
      FTestClass.RegisterMap rfl ⟨42⟩ (0, [])).1,
   (const_accessor_preserves_qualifier constFunStore registerMapTag
      FTestClass.RegisterMap rfl ⟨42⟩ (0, [])).2 [⟨42⟩] 0 rfl⟩

/-- Claim C10: for every instance-member accessor tag, the object form and
the pointer form of access agree: with `Ptr = &Obj` (heap index `i`
holding `x`), `PRIVATE_ACCESS_PTR` reads the same value, performs the same
write, and performs the same invocation as `PRIVATE_ACCESS_OBJ` on `x`,
the pointer form installing the updated object back at the pointee. -/
theorem obj_ptr_access_equiv {X T A R : Type}
    (sv : TResultPtr (MemberVarPtr X T)) (tv : Nat)
    (sf : TResultPtr (MemberFunPtr X A R)) (tf : Nat)
    (h : Heap X) (i : Nat) (x : X) (hx : h[i]? = some x) (v : T) (a : A) :
    PRIVATE_ACCESS_PTR_read sv tv h i = PRIVATE_ACCESS_OBJ_read sv tv x ∧
    PRIVATE_ACCESS_PTR_write sv tv h i v =
      (PRIVATE_ACCESS_OBJ_write sv tv x v).map (fun x' => h.set i x') ∧
    PRIVATE_ACCESS_PTR_invoke sf tf h i a =
      (PRIVATE_ACCESS_OBJ_invoke sf tf x a).map (fun rx => (rx.1, h.set i rx.2)) := by
  refine ⟨?_, ?_, ?_⟩
  · simp [PRIVATE_ACCESS_PTR_read, hx]
  · simp [PRIVATE_ACCESS_PTR_write, hx]
  · simp [PRIVATE_ACCESS_PTR_invoke, hx]

/-- Concrete instance of C10: on a one-object heap, the pointer form of
the `Value` read/write and of the `Increment` invocation agrees with the
object form applied to the pointee. -/
theorem obj_ptr_access_equiv_witness :
    PRIVATE_ACCESS_PTR_read varStore valueTag [⟨42⟩] 0 =
      PRIVATE_ACCESS_OBJ_read varStore valueTag ⟨42⟩ ∧
    PRIVATE_ACCESS_PTR_write varStore valueTag [⟨42⟩] 0 5 =
      (PRIVATE_ACCESS_OBJ_write varStore valueTag ⟨42⟩ 5).map
        (fun x' => [FTestClass.mk 42].set 0 x') ∧
    PRIVATE_ACCESS_PTR_invoke funStore incrementTag [⟨42⟩] 0 () =
      (PRIVATE_ACCESS_OBJ_invoke funStore incrementTag ⟨42⟩ ()).map
        (fun rx => (rx.1, [FTestClass.mk 42].set 0 rx.2)) :=
  obj_ptr_access_equiv varStore valueTag funStore incrementTag
    [⟨42⟩] 0 ⟨42⟩ rfl 5 ()

/-! ## The public surface after initialization

Post-initialization program logic uses the `PRIVATE_ACCESS*` forms, which
only read `TResult<Tag>::Ptr` (they assign through the stored handle to
members, never to the slot itself), and may contain further accessor
declarations, whose binders run on their own fresh tags (a duplicate tag
struct would be a compile-time redefinition error). -/

inductive SurfaceOp (H : Type) where
  | accessObj (t : Nat)
  | accessPtr (t : Nat)
  | accessStatic (t : Nat)
  | declare (b : TRob H)

/-- Effect of one public-surface operation on the slot cells: the access
forms read but never write a slot; a declaration runs its binder. -/
def SurfaceOp.stepStore {H : Type} : SurfaceOp H → TResultPtr H → TResultPtr H
  | .accessObj _, s => s
  | .accessPtr _, s => s
  | .accessStatic _, s => s
  | .declare b, s => b.run s

/-- Run a sequence of public-surface operations over the slot cells. -/
def runOps {H : Type} (ops : List (SurfaceOp H)) (s : TResultPtr H) : TResultPtr H :=
  ops.foldl (fun acc op => op.stepStore acc) s

/-- A bound slot survives any sequence of public-surface operations whose
declarations all use other tags. -/
theorem runOps_preserves {H : Type} :
    ∀ (ops : List (SurfaceOp H)) (s : TResultPtr H) (t : Nat) (p : H),
      (∀ b, SurfaceOp.declare b ∈ ops → b.tag ≠ t) → s t = some p →
      runOps ops s t = some p
  | [], _, _, _, _, hb => hb
  | op :: rest, s, t, p, hfresh, hb => by
      have hstep : op.stepStore s t = some p := by
        cases op with
        | accessObj _ => exact hb
        | accessPtr _ => exact hb
        | accessStatic _ => exact hb
        | declare b =>
            have hne : b.tag ≠ t := hfresh b (List.mem_cons_self _ _)
            exact (TRob.run_other b s t (Ne.symm hne)).trans hb
      exact runOps_preserves rest (op.stepStore s) t p
        (fun b hbm => hfresh b (List.mem_cons_of_mem _ hbm)) hstep

/-- Claim C5: static initialization of the declaring unit runs every
declared binder, so by the time post-initialization logic performs its
first (or any) read of a declared slot, the slot already holds the bound
handle, never an unbound slot. -/
theorem binder_runs_before_first_read {H : Type} (bs : List (TRob H)) (b : TRob H)
    (hb : b ∈ bs) (huniq : ∀ b' ∈ bs, b'.tag = b.tag → b'.ptr = b.ptr) :
    PRIVATE_ACCESS (runBinders bs TResultPtr.zeroInit) b.tag = some b.ptr :=
  runBinders_bound bs b hb huniq TResultPtr.zeroInit

/-- Concrete instance of C5: after the use-case unit's initialization, the
`Value` slot reads as the bound `&FTestClass::Value` handle. -/
theorem binder_runs_before_first_read_witness :
    PRIVATE_ACCESS varStore valueTag = some FTestClass.ValueMember :=
  binder_runs_before_first_read [ValueAccessor] ValueAccessor
    (List.mem_singleton_self _)
    (fun b' hb' _ => by rw [List.mem_singleton.mp hb'])

/-- Claim C6: a slot bound during initialization is never rebound or
mutated by the public surface: every sequence of `PRIVATE_ACCESS*` access
operations and further accessor declarations (necessarily on fresh tags,
since a duplicate tag is a compile-time redefinition) leaves the stored
handle unchanged. -/
theorem slot_never_rebound {H : Type} (ops : List (SurfaceOp H))
    (s : TResultPtr H) (t : Nat) (p : H)
    (hfresh : ∀ b, SurfaceOp.declare b ∈ ops → b.tag ≠ t)
    (hbound : PRIVATE_ACCESS s t = some p) :
    PRIVATE_ACCESS (runOps ops s) t = some p :=
  runOps_preserves ops s t p hfresh hbound

/-- Concrete instance of C6: accesses and a further accessor declaration
on a fresh tag leave the bound `Value` slot exactly as initialized. -/
theorem slot_never_rebound_witness :
    PRIVATE_ACCESS (runOps [SurfaceOp.accessObj valueTag,
      SurfaceOp.accessStatic instanceTag,
      SurfaceOp.declare ⟨9, FTestClass.ValueMember⟩] varStore) valueTag =
      some FTestClass.ValueMember :=
  slot_never_rebound _ varStore valueTag FTestClass.ValueMember
    (by
      intro b hb
      simp only [List.mem_cons, List.not_mem_nil, or_false,
        reduceCtorEq, false_or] at hb
      rw [SurfaceOp.declare.injEq] at hb
      rw [hb]
      decide)
    rfl

/-- Claim C7: in a successfully built program the binding is unconditional
and total: a declared slot holds a valid (non-null) handle after
initialization and at every later point of the run, so no accessor use
can hit an unbound slot at runtime. -/
theorem binding_total {H : Type} (bs : List (TRob H)) (b : TRob H) (hb : b ∈ bs)
    (huniq : ∀ b' ∈ bs, b'.tag = b.tag → b'.ptr = b.ptr)
    (ops : List (SurfaceOp H))
    (hfresh : ∀ b', SurfaceOp.declare b' ∈ ops → b'.tag ≠ b.tag) (n : Nat) :
    (PRIVATE_ACCESS (runOps (List.take n ops)
      (runBinders bs TResultPtr.zeroInit)) b.tag).isSome := by
  have h1 : runBinders bs TResultPtr.zeroInit b.tag = some b.ptr :=
    runBinders_bound bs b hb huniq TResultPtr.zeroInit
  have h2 := runOps_preserves (List.take n ops)
    (runBinders bs TResultPtr.zeroInit) b.tag b.ptr
    (fun b' hbm => hfresh b' (List.take_subset n ops hbm)) h1
  rw [PRIVATE_ACCESS, h2]
  rfl

/-- Concrete instance of C7: at every prefix point of a concrete post-
initialization run the `Value` slot still holds a valid handle. -/
theorem binding_total_witness :
    (PRIVATE_ACCESS (runOps (List.take 1 [SurfaceOp.accessObj valueTag,
      SurfaceOp.declare ⟨9, FTestClass.ValueMember⟩])
      (runBinders [ValueAccessor] TResultPtr.zeroInit)) ValueAccessor.tag).isSome :=
  binding_total [ValueAccessor] ValueAccessor (List.mem_singleton_self _)
    (fun b' hb' _ => by rw [List.mem_singleton.mp hb'])
    [SurfaceOp.accessObj valueTag, SurfaceOp.declare ⟨9, FTestClass.ValueMember⟩]
    (by
      intro b hb
      simp only [List.mem_cons, List.not_mem_nil, or_false,
        reduceCtorEq, false_or] at hb
      rw [SurfaceOp.declare.injEq] at hb
      rw [hb]
      decide)
    1

/-- Claim C9: before its binder has executed (here: under any set of
already-run binders that does not include the slot's own), a slot reads as
the zero-initialized null handle, never an arbitrary value. -/
theorem unbound_slot_reads_null {H : Type} (bs : List (TRob H)) (t : Nat)
    (hnot : ∀ b ∈ bs, b.tag ≠ t) :
    PRIVATE_ACCESS (runBinders bs TResultPtr.zeroInit) t = none :=
  runBinders_eq_of_not_mem bs TResultPtr.zeroInit t hnot

/-- Concrete instance of C9: with no binder run yet, the `Value` slot
reads as the null handle. -/
theorem unbound_slot_reads_null_witness :
    PRIVATE_ACCESS (runBinders ([] : List (TRob (MemberVarPtr FTestClass Int)))
      TResultPtr.zeroInit) valueTag = none :=
  unbound_slot_reads_null [] valueTag (fun b hb => absurd hb (List.not_mem_nil b))

end Crysknife
